import Mathlib

/-!
# Verification of the personal-finance tracker's period-assignment core

Shallow embedding of `src/expense_tracker.py` (the Streamlit expense
tracker).  Dates are calendar triples ordered lexicographically
(year, month, day); amounts are exact rationals (the source manipulates
pandas numerics); transactions carry the four canonical columns
`Data / Operazione / Categoria / Importo`.

The embedded functions mirror, in order:
* `row_hash` / the preview-merge block (lines 196-208),
* the preview normalisation block (lines 186-189),
* `assign_personal_month` and the anchor derivation (lines 216-225),
* the period list, summary totals and chart exclusions (lines 228-267),
* the per-period aggregation `monthly_summary` (lines 274-279),
* the confirmed-save flow (lines 317-354).
-/

/-- A calendar date `(year, month, day)`. -/
structure Date where
  year : Nat
  month : Nat
  day : Nat
deriving DecidableEq

/-- Chronological order on dates: lexicographic on (year, month, day). -/
def Date.le (a b : Date) : Prop :=
  a.year < b.year ∨
    (a.year = b.year ∧ (a.month < b.month ∨ (a.month = b.month ∧ a.day ≤ b.day)))

/-- Strict chronological order on dates. -/
def Date.lt (a b : Date) : Prop := Date.le a b ∧ a ≠ b

instance decDateLe (a b : Date) : Decidable (Date.le a b) := by
  unfold Date.le; infer_instance

instance decDateLt (a b : Date) : Decidable (Date.lt a b) := by
  unfold Date.lt; infer_instance

theorem Date.le_refl (a : Date) : Date.le a a := by
  unfold Date.le; omega

theorem Date.le_trans {a b c : Date} (h1 : Date.le a b) (h2 : Date.le b c) :
    Date.le a c := by
  unfold Date.le at *; omega

theorem Date.le_total (a b : Date) : Date.le a b ∨ Date.le b a := by
  unfold Date.le; omega

theorem Date.le_antisymm {a b : Date} (h1 : Date.le a b) (h2 : Date.le b a) :
    a = b := by
  unfold Date.le at *
  rcases a with ⟨ya, ma, da⟩; rcases b with ⟨yb, mb, db⟩
  simp only [Date.mk.injEq]
  simp only at h1 h2
  omega

instance : IsTotal Date Date.le := ⟨Date.le_total⟩

instance : IsTrans Date Date.le := ⟨fun _ _ _ => Date.le_trans⟩

instance : IsAntisymm Date Date.le := ⟨fun _ _ => Date.le_antisymm⟩

/-- The calendar year-month of a date (`Data.dt.to_period("M")` in the source). -/
def yearMonth (d : Date) : Nat × Nat := (d.year, d.month)

/-- A canonical transaction record: columns `Data`, `Operazione`, `Categoria`,
`Importo` of the working dataframe. -/
structure Tx where
  data : Date
  operazione : String
  categoria : String
  importo : Rat
deriving DecidableEq

/-- Order of transactions by date (`sort_values("Data")`). -/
def txLe (a b : Tx) : Prop := Date.le a.data b.data

instance decTxLe (a b : Tx) : Decidable (txLe a b) := by
  unfold txLe; infer_instance

instance : IsTotal Tx txLe := ⟨fun a b => Date.le_total a.data b.data⟩

instance : IsTrans Tx txLe := ⟨fun _ _ _ => Date.le_trans⟩

/-- Maximum of a list of dates (`Series.max()`); `none` on the empty list
(pandas `NaT`). -/
def maxD : List Date → Option Date
  | [] => none
  | d :: ds =>
    some (match maxD ds with
      | none => d
      | some m => if Date.le d m then m else d)

/-- Minimum of a list of dates (`Series.min()`); `none` on the empty list. -/
def minD : List Date → Option Date
  | [] => none
  | d :: ds =>
    some (match minD ds with
      | none => d
      | some m => if Date.le d m then d else m)

theorem maxD_eq_none_iff {l : List Date} : maxD l = none ↔ l = [] := by
  cases l <;> simp [maxD]

theorem maxD_mem {l : List Date} {m : Date} (h : maxD l = some m) : m ∈ l := by
  induction l with
  | nil => simp [maxD] at h
  | cons d ds ih =>
    simp only [maxD] at h
    cases hds : maxD ds with
    | none => rw [hds] at h; simp at h; simp [h]
    | some m' =>
      rw [hds] at h
      simp only [Option.some.injEq] at h
      by_cases hle : Date.le d m'
      · rw [if_pos hle] at h; subst h; exact List.mem_cons_of_mem _ (ih hds)
      · rw [if_neg hle] at h; subst h; exact List.mem_cons_self _ _

theorem le_maxD {l : List Date} {a m : Date} (ha : a ∈ l) (h : maxD l = some m) :
    Date.le a m := by
  induction l generalizing m with
  | nil => simp at ha
  | cons d ds ih =>
    simp only [maxD] at h
    cases hds : maxD ds with
    | none =>
      rw [hds] at h; simp only [Option.some.injEq] at h
      rcases maxD_eq_none_iff.mp hds with rfl
      simp at ha; rw [ha, ← h]; exact Date.le_refl _
    | some m' =>
      rw [hds] at h
      simp only [Option.some.injEq] at h
      rcases List.mem_cons.mp ha with heq | hmem
      · by_cases hle : Date.le d m'
        · rw [if_pos hle] at h; rw [heq, ← h]; exact hle
        · rw [if_neg hle] at h; rw [heq, ← h]; exact Date.le_refl _
      · have hle' : Date.le a m' := ih hmem hds
        by_cases hle : Date.le d m'
        · rw [if_pos hle] at h; rw [← h]; exact hle'
        · rw [if_neg hle] at h; rw [← h]
          rcases Date.le_total m' d with h2 | h2
          · exact Date.le_trans hle' h2
          · exact absurd h2 hle

theorem minD_eq_none_iff {l : List Date} : minD l = none ↔ l = [] := by
  cases l <;> simp [minD]

theorem minD_mem {l : List Date} {m : Date} (h : minD l = some m) : m ∈ l := by
  induction l with
  | nil => simp [minD] at h
  | cons d ds ih =>
    simp only [minD] at h
    cases hds : minD ds with
    | none => rw [hds] at h; simp at h; simp [h]
    | some m' =>
      rw [hds] at h
      simp only [Option.some.injEq] at h
      by_cases hle : Date.le d m'
      · rw [if_pos hle] at h; subst h; exact List.mem_cons_self _ _
      · rw [if_neg hle] at h; subst h; exact List.mem_cons_of_mem _ (ih hds)

theorem minD_le {l : List Date} {a m : Date} (ha : a ∈ l) (h : minD l = some m) :
    Date.le m a := by
  induction l generalizing m with
  | nil => simp at ha
  | cons d ds ih =>
    simp only [minD] at h
    cases hds : minD ds with
    | none =>
      rw [hds] at h; simp only [Option.some.injEq] at h
      rcases minD_eq_none_iff.mp hds with rfl
      simp at ha; rw [ha, ← h]; exact Date.le_refl _
    | some m' =>
      rw [hds] at h
      simp only [Option.some.injEq] at h
      rcases List.mem_cons.mp ha with heq | hmem
      · by_cases hle : Date.le d m'
        · rw [if_pos hle] at h; rw [heq, ← h]; exact Date.le_refl _
        · rw [if_neg hle] at h; rw [heq, ← h]
          rcases Date.le_total m' d with h2 | h2
          · exact h2
          · exact absurd h2 hle
      · have hle' : Date.le m' a := ih hmem hds
        by_cases hle : Date.le d m'
        · rw [if_pos hle] at h; rw [← h]; exact Date.le_trans hle hle'
        · rw [if_neg hle] at h; rw [← h]; exact hle'

/-- The fixed salary-category label (`"Stipendi e pensioni"`). -/
def salaryCat : String := "Stipendi e pensioni"

/-- Dates of the transactions whose category exactly equals the salary label
(`working_df[working_df["Categoria"] == "Stipendi e pensioni"]["Data"]`). -/
def salaryDates (txs : List Tx) : List Date :=
  (txs.filter (fun t => t.categoria = salaryCat)).map (fun t => t.data)

/-- The anchor sequence: group the salary dates by calendar year-month, keep
the minimum date of each group, sorted ascending
(`salary_df.groupby("YearMonth")["Data"].min().sort_values()`). -/
def salary_periods (txs : List Tx) : List Date :=
  let ds := salaryDates txs
  let months := (ds.map yearMonth).dedup
  let mins := months.filterMap (fun m => minD (ds.filter (fun d => yearMonth d = m)))
  mins.insertionSort Date.le

/-- `assign_personal_month` from the source: the greatest anchor `≤ date`,
`none` (`pd.NaT`) when there is none. -/
def assign_personal_month (anchors : List Date) (date : Date) : Option Date :=
  maxD (anchors.filter (fun a => Date.le a date))

/-- Boolean test that the first character list is an initial segment of the
second. -/
def leadsWith : List Char → List Char → Bool
  | [], _ => true
  | _ :: _, [] => false
  | a :: as, b :: bs => a == b && leadsWith as bs

/-- Boolean substring test on character lists. -/
def containsSeq (needle : List Char) : List Char → Bool
  | [] => needle.isEmpty
  | c :: rest => leadsWith needle (c :: rest) || containsSeq needle rest

/-- Case-insensitive substring match
(`Series.str.contains(needle, case=False)` in the source). -/
def containsCI (hay needle : String) : Bool :=
  containsSeq (needle.data.map Char.toLower) (hay.data.map Char.toLower)

/-- The fixed investment keyword filter. -/
def investKey : String := "Investimenti"

/-- The fixed savings keyword filter. -/
def savingsKey : String := "Risparmi"

/-- `df["Categoria"].str.contains("Investimenti", case=False)`. -/
def matchesInvest (t : Tx) : Bool := containsCI t.categoria investKey

/-- `df["Categoria"].str.contains("Risparmi", case=False)`. -/
def matchesSavings (t : Tx) : Bool := containsCI t.categoria savingsKey

/-- The transactions of the working set annotated with their period anchor,
keeping only rows with a non-null `PersonalMonthStart`.  With the default
"Select All Periods" this is exactly the dataframe `df` the summaries are
computed on: `df[df["PeriodName"].isin(selected_periods)]` keeps the rows
whose `PeriodName` is non-null, i.e. whose anchor assignment succeeded.
A period is identified here by its anchor date: the source renders it as
`strftime("%Y_%m_%b")` of the anchor, which separates any two distinct
anchors of one run since they lie in distinct calendar year-months. -/
def assignedRows (txs : List Tx) : List (Tx × Date) :=
  txs.filterMap (fun t =>
    (assign_personal_month (salary_periods txs) t.data).map (fun a => (t, a)))

/-- The ordered period list shown in the sidebar:
`working_df[["PersonalMonthStart","PeriodName"]].drop_duplicates().dropna().sort_values("PersonalMonthStart")`.
`PeriodName` is a function of `PersonalMonthStart`, so deduplicating the
pairs deduplicates the anchors. -/
def periodList (txs : List Tx) : List Date :=
  (((assignedRows txs).map (fun p => p.2)).dedup).insertionSort Date.le

/-- `total_expenses = df.loc[df["Importo"] < 0, "Importo"].sum()`. -/
def totalExpenses (rows : List Tx) : Rat :=
  ((rows.filter (fun t => t.importo < 0)).map (fun t => t.importo)).sum

/-- `total_income = df.loc[df["Importo"] > 0, "Importo"].sum()`. -/
def totalIncome (rows : List Tx) : Rat :=
  ((rows.filter (fun t => 0 < t.importo)).map (fun t => t.importo)).sum

/-- `total_investments`: negative amounts in categories matching the
investment keyword (case-insensitive substring). -/
def totalInvestments (rows : List Tx) : Rat :=
  ((rows.filter (fun t => t.importo < 0 && matchesInvest t)).map
    (fun t => t.importo)).sum

/-- `total_savings`: negative amounts in categories matching the savings
keyword (case-insensitive substring). -/
def totalSavings (rows : List Tx) : Rat :=
  ((rows.filter (fun t => t.importo < 0 && matchesSavings t)).map
    (fun t => t.importo)).sum

/-- The chart input `df_charts`: rows whose category matches neither the
investment nor the savings keyword. -/
def chartRows (rows : List Tx) : List Tx :=
  rows.filter (fun t => !(matchesInvest t) && !(matchesSavings t))

/-- `df_charts` with the period annotation kept (input of `monthly_summary`). -/
def dfCharts (txs : List Tx) : List (Tx × Date) :=
  (assignedRows txs).filter (fun p => !(matchesInvest p.1) && !(matchesSavings p.1))

/-- Per-period `Expenses = lambda x: x[x < 0].sum()` over `df_charts`. -/
def periodExpenses (txs : List Tx) (a : Date) : Rat :=
  ((((dfCharts txs).filter (fun p => p.2 = a)).map (fun p => p.1.importo)).filter
    (fun x => x < 0)).sum

/-- Per-period `Income = lambda x: x[x > 0].sum()` over `df_charts`. -/
def periodIncome (txs : List Tx) (a : Date) : Rat :=
  ((((dfCharts txs).filter (fun p => p.2 = a)).map (fun p => p.1.importo)).filter
    (fun x => 0 < x)).sum

/-- Per-period `Net = Income + Expenses`. -/
def periodNet (txs : List Tx) (a : Date) : Rat :=
  periodIncome txs a + periodExpenses txs a

/-- The `Net` column of `monthly_summary` after
`reindex(period_list).fillna(0)`: one value per listed period, in anchor
order, zero when the period has no chart rows. -/
def monthlyNets (txs : List Tx) : List Rat :=
  (periodList txs).map (periodNet txs)

/-- Sum of the amounts of all transactions with a non-null period assignment. -/
def assignedTotal (txs : List Tx) : Rat :=
  ((assignedRows txs).map (fun p => p.1.importo)).sum

/-- Sum of the amounts of the assigned transactions that feed the charts
(categories matching neither keyword). -/
def assignedChartTotal (txs : List Tx) : Rat :=
  ((dfCharts txs).map (fun p => p.1.importo)).sum

/-- Modelled from the spec: the source's per-period aggregation
(`monthly_summary`, lines 274-282) produces `Expenses`, `Income` and `Net`
columns but no cumulative column; the spec's `CumulativeBalance` is "the
running sum of Net across periods in anchor order", embedded here as the
running-sum transform started from an accumulator. -/
def cumulativeBalance : Rat → List Rat → List Rat
  | _, [] => []
  | acc, x :: xs => (acc + x) :: cumulativeBalance (acc + x) xs

/-- One row of the uploaded preview after the column-alias resolution, with
the two fallible parses already applied: `data` is the result of
`pd.to_datetime(.., errors="coerce", dayfirst=True)` (day-first convention;
`none` = `NaT`, unparseable) and `importo` the result of
`pd.to_numeric(.., errors="coerce")` (`none` = `NaN`, unparseable). -/
structure RawRow where
  data : Option Date
  operazione : String
  categoria : String
  importo : Option Rat

/-- A raw row survives iff both fallible parses succeeded; the surviving row
keeps all four columns. -/
def parseRow (r : RawRow) : Option Tx :=
  match r.data, r.importo with
  | some d, some a => some ⟨d, r.operazione, r.categoria, a⟩
  | _, _ => none

/-- The preview normalisation:
`dropna(subset=["Data","Importo"]).sort_values("Data")` (lines 186-189). -/
def normalizePreview (rows : List RawRow) : List Tx :=
  (rows.filterMap parseRow).insertionSort txLe

/-- The preview-merge block (lines 203-208): a per-row hash column is
computed on both sides, the two frames are concatenated, the hash column is
dropped again and the result is sorted by date.  The row-hash function is a
parameter (the source delegates it to `pd.util.hash_pandas_object`). -/
def mergeWorking (rh : Tx → Nat) (stored preview : List Tx) : List Tx :=
  let storedH := stored.map (fun t => (t, rh t))
  let previewH := preview.map (fun t => (t, rh t))
  ((storedH ++ previewH).map (fun p => p.1)).insertionSort txLe

/-- The in-memory session state touched by the save flow. -/
structure SessionState where
  combined : List Tx
  savingMode : Bool
deriving DecidableEq

/-- Outcome reported to the user by the confirmed-save flow. -/
inductive SaveOutcome where
  | warned
  | failed (msg : String)
  | saved (n : Nat)
deriving DecidableEq

/-- The confirmed-save flow (lines 317-354): the literal phrase `"Confirm"`
gates the write; the database write happens first (its outcome is the
`write` argument — an exception carries a message), and only on success is
`combined_df` extended with the preview and `saving_mode` reset.  On a write
error the message is surfaced and the session state is left as it was. -/
def confirmSave (confirmText : String) (write : Except String Unit)
    (preview : List Tx) (s : SessionState) : SaveOutcome × SessionState :=
  if confirmText = "Confirm" then
    match write with
    | Except.error e => (SaveOutcome.failed e, s)
    | Except.ok _ =>
      (SaveOutcome.saved preview.length,
        { combined := s.combined ++ preview, savingMode := false })
  else (SaveOutcome.warned, s)

/-- Scenario data from the spec: salary events on 2024-01-05 and 2024-02-03,
plus ordinary transactions around them. -/
def scenarioTxs : List Tx :=
  [⟨⟨2024, 1, 4⟩, "coffee", "Bar", -3⟩,
   ⟨⟨2024, 1, 5⟩, "salary jan", "Stipendi e pensioni", 1500⟩,
   ⟨⟨2024, 1, 10⟩, "groceries", "Spesa", -40⟩,
   ⟨⟨2024, 2, 3⟩, "salary feb", "Stipendi e pensioni", 1500⟩,
   ⟨⟨2024, 2, 20⟩, "etf buy", "Investimenti - ETF", -200⟩]

/-- Two salary deposits within one calendar month (2024-01-05, 2024-01-20). -/
def collapseTxs : List Tx :=
  [⟨⟨2024, 1, 5⟩, "salary", "Stipendi e pensioni", 1000⟩,
   ⟨⟨2024, 1, 20⟩, "bonus", "Stipendi e pensioni", 500⟩]

/-- C1: for every transaction date, the Period Assigner returns the greatest
anchor of the derived anchor sequence that is `≤` the date (inclusive lower
bound: a date equal to an anchor is assigned that anchor), returns `none`
exactly when no anchor is `≤` the date, and the assigned anchor is monotone
non-decreasing in the date. -/
theorem C1_assign_greatest_anchor_monotone (txs : List Tx) (d : Date) :
    (assign_personal_month (salary_periods txs) d = none ↔
      ∀ a ∈ salary_periods txs, ¬ Date.le a d) ∧
    (∀ m, assign_personal_month (salary_periods txs) d = some m →
      m ∈ salary_periods txs ∧ Date.le m d ∧
        ∀ a ∈ salary_periods txs, Date.le a d → Date.le a m) ∧
    (∀ d' m, Date.le d d' → assign_personal_month (salary_periods txs) d = some m →
      ∃ m', assign_personal_month (salary_periods txs) d' = some m' ∧ Date.le m m') := by
  refine ⟨⟨fun h a ha hle => ?_, fun h => ?_⟩, fun m hm => ?_, fun d' m hdd' hm => ?_⟩
  · have hfil : a ∈ (salary_periods txs).filter (fun x => Date.le x d) := by
      simp only [List.mem_filter, decide_eq_true_eq]
      exact ⟨ha, hle⟩
    have hnil : (salary_periods txs).filter (fun x => Date.le x d) = [] :=
      maxD_eq_none_iff.mp h
    rw [hnil] at hfil
    simp at hfil
  · apply maxD_eq_none_iff.mpr
    apply List.filter_eq_nil_iff.mpr
    intro a ha
    simp only [decide_eq_true_eq]
    exact h a ha
  · simp only [assign_personal_month] at hm
    have hmem := maxD_mem hm
    simp only [List.mem_filter, decide_eq_true_eq] at hmem
    refine ⟨hmem.1, hmem.2, fun a ha hle => ?_⟩
    exact le_maxD (by simp only [List.mem_filter, decide_eq_true_eq]; exact ⟨ha, hle⟩) hm
  · simp only [assign_personal_month] at hm ⊢
    have hmem := maxD_mem hm
    simp only [List.mem_filter, decide_eq_true_eq] at hmem
    have hmem' : m ∈ (salary_periods txs).filter (fun x => Date.le x d') := by
      simp only [List.mem_filter, decide_eq_true_eq]
      exact ⟨hmem.1, Date.le_trans hmem.2 hdd'⟩
    cases h' : maxD ((salary_periods txs).filter (fun x => Date.le x d')) with
    | none =>
      rw [maxD_eq_none_iff.mp h'] at hmem'
      simp at hmem'
    | some m' => exact ⟨m', rfl, le_maxD hmem' h'⟩

/-- Witness for C1 on the spec's scenario: the transaction dated 2024-01-10
is assigned the 2024-01-05 anchor, which is indeed an anchor `≤` its date. -/
theorem C1_assign_greatest_anchor_monotone_witness :
    (⟨2024, 1, 5⟩ : Date) ∈ salary_periods scenarioTxs ∧
      Date.le ⟨2024, 1, 5⟩ ⟨2024, 1, 10⟩ :=
  have h := (C1_assign_greatest_anchor_monotone scenarioTxs ⟨2024, 1, 10⟩).2.1
    ⟨2024, 1, 5⟩ (by decide)
  ⟨h.1, h.2.1⟩

/-- C2: the anchor sequence is strictly increasing, has pairwise-distinct
calendar year-months (at most one anchor per month), and a date is an anchor
iff it is a salary-transaction date that is minimal among the salary dates of
its calendar year-month — so two salary deposits in one month collapse to
the earlier one. -/
theorem C2_anchor_sequence (txs : List Tx) :
    List.Sorted Date.lt (salary_periods txs) ∧
    List.Pairwise (fun a b => yearMonth a ≠ yearMonth b) (salary_periods txs) ∧
    (∀ d, d ∈ salary_periods txs ↔
      (d ∈ salaryDates txs ∧
        ∀ e ∈ salaryDates txs, yearMonth e = yearMonth d → Date.le d e)) := by
  set ds := salaryDates txs with hds
  set months := (ds.map yearMonth).dedup with hmonths
  set mins := months.filterMap (fun m => minD (ds.filter (fun d => yearMonth d = m)))
    with hmins
  have hsp : salary_periods txs = mins.insertionSort Date.le := by
    simp only [salary_periods, hds, hmonths, hmins]
  have hperm : (mins.insertionSort Date.le).Perm mins := List.perm_insertionSort _ _
  have hf : ∀ m x, minD (ds.filter (fun d => yearMonth d = m)) = some x →
      x ∈ ds ∧ yearMonth x = m ∧ ∀ e ∈ ds, yearMonth e = m → Date.le x e := by
    intro m x hx
    have hxmem := minD_mem hx
    simp only [List.mem_filter, decide_eq_true_eq] at hxmem
    refine ⟨hxmem.1, hxmem.2, fun e he hym => ?_⟩
    exact minD_le (by simp only [List.mem_filter, decide_eq_true_eq]; exact ⟨he, hym⟩) hx
  have hpw_mins : mins.Pairwise (fun a b => yearMonth a ≠ yearMonth b) := by
    apply List.Pairwise.filterMap _ ?_ (List.nodup_dedup _)
    intro m m' hne x hx x' hx'
    have h1 := (hf m x hx).2.1
    have h2 := (hf m' x' hx').2.1
    rw [h1, h2]
    exact hne
  have hpw : (salary_periods txs).Pairwise (fun a b => yearMonth a ≠ yearMonth b) := by
    rw [hsp]
    exact (hperm.pairwise_iff (fun h => Ne.symm h)).mpr hpw_mins
  have hsorted_le : List.Sorted Date.le (salary_periods txs) := by
    rw [hsp]
    exact List.sorted_insertionSort Date.le mins
  refine ⟨?_, hpw, ?_⟩
  · exact (hsorted_le.and hpw).imp
      (fun h => ⟨h.1, fun heq => h.2 (by rw [heq])⟩)
  · intro d
    rw [hsp, hperm.mem_iff]
    constructor
    · intro hd
      rcases List.mem_filterMap.mp hd with ⟨m, _, hfm⟩
      obtain ⟨h1, h2, h3⟩ := hf m d hfm
      exact ⟨h1, fun e he hym => h3 e he (by rw [hym, h2])⟩
    · rintro ⟨hd, hmin⟩
      apply List.mem_filterMap.mpr
      refine ⟨yearMonth d, List.mem_dedup.mpr (List.mem_map_of_mem _ hd), ?_⟩
      cases hmx : minD (ds.filter (fun e => yearMonth e = yearMonth d)) with
      | none =>
        have hdf : d ∈ ds.filter (fun e => yearMonth e = yearMonth d) :=
          List.mem_filter.mpr ⟨hd, by simp⟩
        rw [minD_eq_none_iff.mp hmx] at hdf
        simp at hdf
      | some x =>
        obtain ⟨hx1, hx2, _⟩ := hf _ x hmx
        have hle1 : Date.le x d :=
          minD_le (List.mem_filter.mpr ⟨hd, by simp⟩) hmx
        have hle2 : Date.le d x := hmin x hx1 hx2
        exact congrArg some (Date.le_antisymm hle1 hle2)

/-- Witness for C2: with two January salary rows (2024-01-05 and 2024-01-20)
the earlier date is an anchor, by the membership characterisation. -/
theorem C2_anchor_sequence_witness :
    (⟨2024, 1, 5⟩ : Date) ∈ salary_periods collapseTxs :=
  ((C2_anchor_sequence collapseTxs).2.2 ⟨2024, 1, 5⟩).mpr (by decide)

theorem sum_pos_add_sum_neg (l : List Rat) :
    (l.filter (fun x => 0 < x)).sum + (l.filter (fun x => x < 0)).sum = l.sum := by
  induction l with
  | nil => simp
  | cons x xs ih =>
    rcases lt_trichotomy x 0 with h | h | h
    · rw [List.filter_cons_of_neg (by simp [not_lt.mpr h.le]),
        List.filter_cons_of_pos (by simp [h]), List.sum_cons, List.sum_cons]
      linarith [ih]
    · rw [List.filter_cons_of_neg (by simp [h]),
        List.filter_cons_of_neg (by simp [h]), List.sum_cons]
      rw [h, zero_add]
      exact ih
    · rw [List.filter_cons_of_pos (by simp [h]),
        List.filter_cons_of_neg (by simp [not_lt.mpr h.le]), List.sum_cons, List.sum_cons]
      linarith [ih]

theorem sum_single_hit (keys : List Date) (x : Date) (hx : x ∈ keys)
    (hnd : keys.Nodup) (c : Rat) :
    (keys.map (fun a => if x = a then c else 0)).sum = c := by
  induction keys with
  | nil => simp at hx
  | cons k ks ih =>
    rcases List.mem_cons.mp hx with heq | hmem
    · rw [List.map_cons, List.sum_cons, if_pos heq]
      have hzero : (ks.map (fun a => if x = a then c else 0)).sum = 0 := by
        apply List.sum_eq_zero
        intro y hy
        rcases List.mem_map.mp hy with ⟨a, ha, hya⟩
        rw [← hya, if_neg]
        intro hxa
        exact (List.nodup_cons.mp hnd).1 (by rw [← heq, hxa]; exact ha)
      rw [hzero, add_zero]
    · rw [List.map_cons, List.sum_cons, if_neg, zero_add]
      · exact ih hmem (List.nodup_cons.mp hnd).2
      · intro hxk
        exact (List.nodup_cons.mp hnd).1 (hxk ▸ hmem)

theorem groupSum_cons (q : Tx × Date) (l : List (Tx × Date)) (a : Date) :
    (((q :: l).filter (fun p => p.2 = a)).map (fun p => p.1.importo)).sum
      = (if q.2 = a then q.1.importo else 0)
        + ((l.filter (fun p => p.2 = a)).map (fun p => p.1.importo)).sum := by
  by_cases h : q.2 = a
  · rw [List.filter_cons_of_pos (by simp [h]), if_pos h, List.map_cons, List.sum_cons]
  · rw [List.filter_cons_of_neg (by simp [h]), if_neg h, zero_add]

theorem sum_groups (l : List (Tx × Date)) (keys : List Date)
    (hnd : keys.Nodup) (hcov : ∀ p ∈ l, p.2 ∈ keys) :
    (keys.map (fun a =>
        ((l.filter (fun p => p.2 = a)).map (fun p => p.1.importo)).sum)).sum
      = (l.map (fun p => p.1.importo)).sum := by
  induction l with
  | nil => simp
  | cons q l ih =>
    have hcov' : ∀ p ∈ l, p.2 ∈ keys := fun p hp => hcov p (List.mem_cons_of_mem _ hp)
    have hq : q.2 ∈ keys := hcov q (List.mem_cons_self _ _)
    have hstep : keys.map (fun a =>
          (((q :: l).filter (fun p => p.2 = a)).map (fun p => p.1.importo)).sum)
        = keys.map (fun a => (if q.2 = a then q.1.importo else 0)
            + ((l.filter (fun p => p.2 = a)).map (fun p => p.1.importo)).sum) :=
      List.map_congr_left (fun a _ => groupSum_cons q l a)
    rw [hstep, List.sum_map_add, sum_single_hit keys q.2 hq hnd, List.map_cons,
      List.sum_cons, ih hcov']

theorem periodNet_eq_groupSum (txs : List Tx) (a : Date) :
    periodNet txs a
      = (((dfCharts txs).filter (fun p => p.2 = a)).map (fun p => p.1.importo)).sum := by
  unfold periodNet periodIncome periodExpenses
  exact sum_pos_add_sum_neg _

theorem periodList_nodup (txs : List Tx) : (periodList txs).Nodup := by
  unfold periodList
  exact (List.perm_insertionSort Date.le _).nodup_iff.mpr (List.nodup_dedup _)

theorem dfCharts_anchor_mem_periodList (txs : List Tx) :
    ∀ p ∈ dfCharts txs, p.2 ∈ periodList txs := by
  intro p hp
  unfold dfCharts at hp
  have hp' : p ∈ assignedRows txs := List.mem_of_mem_filter hp
  unfold periodList
  rw [(List.perm_insertionSort Date.le _).mem_iff, List.mem_dedup]
  exact List.mem_map_of_mem _ hp'

/-- Shared core of the aggregation claims: the per-period `Net` values sum to
the total amount of the assigned transactions that feed the charts
(i.e. excluding the investment/savings categories). -/
theorem sum_monthlyNets_eq_chartTotal (txs : List Tx) :
    (monthlyNets txs).sum = assignedChartTotal txs := by
  unfold monthlyNets assignedChartTotal
  rw [List.map_congr_left (fun a _ => periodNet_eq_groupSum txs a)]
  exact sum_groups (dfCharts txs) (periodList txs) (periodList_nodup txs)
    (dfCharts_anchor_mem_periodList txs)

/-- C3 counterexample: in the spec scenario the assigned ETF purchase
(category containing "Investimenti") is excluded from every per-period `Net`,
so the per-period `Net` values sum to 2960 while the assigned transactions
sum to 2760. -/
theorem C3_counterexample :
    ¬ ((monthlyNets scenarioTxs).sum = assignedTotal scenarioTxs) := by
  simp +decide [monthlyNets, periodList, assignedRows, assign_personal_month,
    salary_periods, salaryDates, yearMonth, minD, maxD, periodNet, periodIncome,
    periodExpenses, dfCharts, matchesInvest, matchesSavings, containsCI,
    containsSeq, leadsWith, investKey, savingsKey, salaryCat, assignedTotal,
    scenarioTxs]
  norm_num

/-- C3 (amended): the sum over all periods of the per-period `Net` aggregate
equals the sum of the amounts of the transactions with a non-null period
assignment whose category matches neither the investment nor the savings
keyword (the source computes `monthly_summary` from `df_charts`, which
excludes those categories). -/
theorem C3_net_sum_equals_assigned_chart_total (txs : List Tx) :
    (monthlyNets txs).sum = assignedChartTotal txs :=
  sum_monthlyNets_eq_chartTotal txs

theorem cumulativeBalance_getElem? (l : List Rat) (acc : Rat) (i : Nat)
    (h : i < l.length) :
    (cumulativeBalance acc l)[i]? = some (acc + (l.take (i + 1)).sum) := by
  induction l generalizing acc i with
  | nil => simp at h
  | cons x xs ih =>
    cases i with
    | zero => simp [cumulativeBalance]
    | succ j =>
      have hj : j < xs.length := by simpa using h
      simp only [cumulativeBalance, List.getElem?_cons_succ, List.take_succ_cons,
        List.sum_cons, ih (acc + x) j hj]
      rw [add_assoc]

theorem cumulativeBalance_getLast? (l : List Rat) (acc : Rat) (h : l ≠ []) :
    (cumulativeBalance acc l).getLast? = some (acc + l.sum) := by
  induction l generalizing acc with
  | nil => exact absurd rfl h
  | cons x xs ih =>
    cases xs with
    | nil => simp [cumulativeBalance]
    | cons y ys =>
      have hne : (y :: ys : List Rat) ≠ [] := by simp
      have hstep : cumulativeBalance acc (x :: y :: ys)
          = (acc + x) :: cumulativeBalance (acc + x) (y :: ys) := rfl
      have htail := ih (acc + x) hne
      have hcons : cumulativeBalance (acc + x) (y :: ys)
          = ((acc + x) + y) :: cumulativeBalance ((acc + x) + y) ys := rfl
      rw [hstep, hcons, List.getLast?_cons_cons, ← hcons, htail]
      simp [add_assoc]

/-- C4 counterexample: the running sum of per-period `Net` at the last period
is 2960 in the spec scenario, while the total net of all assigned
transactions is 2760 (the assigned ETF purchase is excluded from the
per-period aggregation). -/
theorem C4_counterexample :
    ¬ ((cumulativeBalance 0 (monthlyNets scenarioTxs)).getLast?
        = some (assignedTotal scenarioTxs)) := by
  simp +decide [cumulativeBalance, monthlyNets, periodList, assignedRows,
    assign_personal_month, salary_periods, salaryDates, yearMonth, minD, maxD,
    periodNet, periodIncome, periodExpenses, dfCharts, matchesInvest,
    matchesSavings, containsCI, containsSeq, leadsWith, investKey, savingsKey,
    salaryCat, assignedTotal, scenarioTxs]
  norm_num

/-- C4 (amended): the `CumulativeBalance` series (the spec's running sum of
per-period `Net`, not materialised by the source) holds at index `i` the sum
of the first `i+1` `Net` values, and at the last period it equals the total
net of the assigned transactions that feed the charts (excluding the
investment/savings categories). -/
theorem C4_cumulative_balance (txs : List Tx) :
    (∀ i, i < (monthlyNets txs).length →
      (cumulativeBalance 0 (monthlyNets txs))[i]?
        = some (((monthlyNets txs).take (i + 1)).sum)) ∧
    (monthlyNets txs ≠ [] →
      (cumulativeBalance 0 (monthlyNets txs)).getLast?
        = some (assignedChartTotal txs)) := by
  constructor
  · intro i hi
    rw [cumulativeBalance_getElem? _ 0 i hi, zero_add]
  · intro hne
    rw [cumulativeBalance_getLast? _ 0 hne, zero_add, sum_monthlyNets_eq_chartTotal]

/-- Witness for C4 on the spec scenario (a non-empty period list). -/
theorem C4_cumulative_balance_witness :
    (cumulativeBalance 0 (monthlyNets scenarioTxs)).getLast?
      = some (assignedChartTotal scenarioTxs) :=
  (C4_cumulative_balance scenarioTxs).2
    (by simp only [monthlyNets, ne_eq, List.map_eq_nil_iff]; decide)

/-- A transaction set with no salary-category row at all. -/
def noSalaryTxs : List Tx := [⟨⟨2024, 3, 1⟩, "coffee", "Bar", -3⟩]

/-- C5: with zero salary-category rows the anchor sequence is empty, every
period assignment is null, no row is assigned, and the period list and the
per-period series are empty — all produced normally by the (total) pipeline,
not by raising an error. -/
theorem C5_no_salary_rows (txs : List Tx)
    (h : ∀ t ∈ txs, t.categoria ≠ salaryCat) :
    salary_periods txs = [] ∧
    (∀ d, assign_personal_month (salary_periods txs) d = none) ∧
    assignedRows txs = [] ∧ periodList txs = [] ∧ monthlyNets txs = [] := by
  have hds : salaryDates txs = [] := by
    unfold salaryDates
    rw [List.filter_eq_nil_iff.mpr (by intro t ht; simpa using h t ht)]
    rfl
  have hsp : salary_periods txs = [] := by
    simp [salary_periods, hds]
  have hassign : ∀ d, assign_personal_month (salary_periods txs) d = none := by
    intro d
    rw [hsp]
    rfl
  have har : assignedRows txs = [] := by
    unfold assignedRows
    apply List.filterMap_eq_nil_iff.mpr
    intro t _
    rw [hassign t.data]
    rfl
  have hpl : periodList txs = [] := by
    simp [periodList, har]
  refine ⟨hsp, hassign, har, hpl, ?_⟩
  simp [monthlyNets, hpl]

/-- Witness for C5: a one-row set with no salary category. -/
theorem C5_no_salary_rows_witness :
    salary_periods noSalaryTxs = [] ∧ periodList noSalaryTxs = [] :=
  have h := C5_no_salary_rows noSalaryTxs (by decide)
  ⟨h.1, h.2.2.2.1⟩

/-- Raw preview rows: two good rows (out of date order), one with an
unparseable date, one with an unparseable amount. -/
def rawRows0 : List RawRow :=
  [⟨some ⟨2024, 2, 1⟩, "ok feb", "Spesa", some (-5)⟩,
   ⟨none, "bad date", "Spesa", some 1⟩,
   ⟨some ⟨2024, 1, 2⟩, "ok jan", "Bar", some 7⟩,
   ⟨some ⟨2024, 1, 3⟩, "bad amount", "Bar", none⟩]

/-- C6: the Normalizer drops exactly the rows whose date or amount parse
failed, keeps every other row with all four fields intact, and returns the
survivors sorted ascending by date. -/
theorem C6_normalize_drops_and_sorts (rows : List RawRow) :
    List.Sorted txLe (normalizePreview rows) ∧
    (normalizePreview rows).Perm (rows.filterMap parseRow) ∧
    (∀ r : RawRow, parseRow r = none ↔ (r.data = none ∨ r.importo = none)) ∧
    (∀ (r : RawRow) (d : Date) (a : Rat), r.data = some d → r.importo = some a →
      parseRow r = some ⟨d, r.operazione, r.categoria, a⟩) := by
  refine ⟨List.sorted_insertionSort _ _, List.perm_insertionSort _ _, ?_, ?_⟩
  · intro r
    cases hd : r.data <;> cases ha : r.importo <;> simp [parseRow, hd, ha]
  · intro r d a hd ha
    simp [parseRow, hd, ha]

/-- Witness for C6: the row with the failed date parse is dropped. -/
theorem C6_normalize_drops_and_sorts_witness :
    parseRow ⟨none, "bad date", "Spesa", some 1⟩ = none :=
  ((C6_normalize_drops_and_sorts rawRows0).2.2.1 ⟨none, "bad date", "Spesa", some 1⟩).mpr
    (Or.inl rfl)

/-- C7: the investments and savings totals are driven by case-insensitive
substring matches of the category against the two fixed keywords; rows whose
category matches a keyword are excluded from the chart input but a negative
amount still counts toward total expenses (and toward the matching total). -/
theorem C7_keyword_matching_and_exclusion (t : Tx) (rows : List Tx) :
    ((matchesInvest t || matchesSavings t) = true →
      chartRows (t :: rows) = chartRows rows) ∧
    (t.importo < 0 → totalExpenses (t :: rows) = t.importo + totalExpenses rows) ∧
    (t.importo < 0 → matchesInvest t = true →
      totalInvestments (t :: rows) = t.importo + totalInvestments rows) ∧
    (t.importo < 0 → matchesSavings t = true →
      totalSavings (t :: rows) = t.importo + totalSavings rows) ∧
    containsCI "Investimenti - ETF" investKey = true ∧
    containsCI "Risparmi conto" savingsKey = true ∧
    matchesInvest t = containsCI t.categoria investKey ∧
    matchesSavings t = containsCI t.categoria savingsKey := by
  refine ⟨fun h => ?_, fun h => ?_, fun h hm => ?_, fun h hm => ?_,
    by decide, by decide, rfl, rfl⟩
  · unfold chartRows
    rw [List.filter_cons_of_neg]
    intro hc
    rw [Bool.and_eq_true, Bool.not_eq_true', Bool.not_eq_true'] at hc
    simp only [Bool.or_eq_true] at h
    rcases h with h' | h'
    · rw [h'] at hc; exact Bool.noConfusion hc.1
    · rw [h'] at hc; exact Bool.noConfusion hc.2
  · unfold totalExpenses
    rw [List.filter_cons_of_pos (by simpa using h), List.map_cons, List.sum_cons]
  · unfold totalInvestments
    rw [List.filter_cons_of_pos (by simp [h, hm]), List.map_cons, List.sum_cons]
  · unfold totalSavings
    rw [List.filter_cons_of_pos (by simp [h, hm]), List.map_cons, List.sum_cons]

/-- Witness for C7: an "Investimenti - ETF" expense of −10 leaves the chart
input and adds −10 to both total expenses and the investments total. -/
theorem C7_keyword_matching_and_exclusion_witness :
    chartRows [⟨⟨2024, 1, 1⟩, "etf", "Investimenti - ETF", -10⟩] = chartRows [] ∧
    totalExpenses [⟨⟨2024, 1, 1⟩, "etf", "Investimenti - ETF", -10⟩]
      = -10 + totalExpenses [] ∧
    totalInvestments [⟨⟨2024, 1, 1⟩, "etf", "Investimenti - ETF", -10⟩]
      = -10 + totalInvestments [] :=
  have h := C7_keyword_matching_and_exclusion
    ⟨⟨2024, 1, 1⟩, "etf", "Investimenti - ETF", -10⟩ []
  ⟨h.1 (by decide), h.2.1 (by decide), h.2.2.1 (by decide) (by decide)⟩

/-- C8: when the database write raises, the confirmed save surfaces the
error message and leaves the in-memory combined set unchanged; a wrong
confirmation phrase only warns; only a successful write extends the
combined set. -/
theorem C8_save_error_leaves_state (e : String) (preview : List Tx)
    (s : SessionState) :
    confirmSave "Confirm" (Except.error e) preview s = (SaveOutcome.failed e, s) ∧
    (∀ ct, ct ≠ "Confirm" →
      confirmSave ct (Except.error e) preview s = (SaveOutcome.warned, s)) ∧
    (confirmSave "Confirm" (Except.ok ()) preview s).2.combined
      = s.combined ++ preview := by
  refine ⟨rfl, fun ct hct => ?_, rfl⟩
  unfold confirmSave
  rw [if_neg hct]

/-- Witness for C8: a failing write with the right phrase reports the error
and keeps the state; a wrong phrase warns. -/
theorem C8_save_error_leaves_state_witness :
    confirmSave "Confirm" (Except.error "db down") [] ⟨[], true⟩
      = (SaveOutcome.failed "db down", ⟨[], true⟩) ∧
    confirmSave "nope" (Except.error "db down") [] ⟨[], true⟩
      = (SaveOutcome.warned, ⟨[], true⟩) :=
  ⟨(C8_save_error_leaves_state "db down" [] ⟨[], true⟩).1,
   (C8_save_error_leaves_state "db down" [] ⟨[], true⟩).2.1 "nope" (by decide)⟩

theorem mergeWorking_eq_sort_append (rh : Tx → Nat) (stored preview : List Tx) :
    mergeWorking rh stored preview = (stored ++ preview).insertionSort txLe := by
  simp only [mergeWorking, List.map_append, List.map_map]
  simp [Function.comp_def]

/-- C9: merging the stored rows with an uploaded preview performs no
duplicate elimination — the working set is the plain concatenation sorted by
date, every row keeps its multiplicity from both sides, and the result does
not depend on the row-hash function. -/
theorem C9_merge_is_concat_no_dedup (rh : Tx → Nat) (stored preview : List Tx) :
    (mergeWorking rh stored preview).Perm (stored ++ preview) ∧
    List.Sorted txLe (mergeWorking rh stored preview) ∧
    (∀ t, (mergeWorking rh stored preview).count t
      = stored.count t + preview.count t) ∧
    (∀ rh' : Tx → Nat, mergeWorking rh stored preview
      = mergeWorking rh' stored preview) := by
  rw [mergeWorking_eq_sort_append]
  refine ⟨List.perm_insertionSort _ _, List.sorted_insertionSort _ _, fun t => ?_,
    fun rh' => (mergeWorking_eq_sort_append rh' stored preview).symm⟩
  rw [(List.perm_insertionSort txLe (stored ++ preview)).count_eq t, List.count_append]

/-- C10: the investments and savings totals only sum strictly negative
amounts: a positive-amount transaction changes neither total, whatever its
category. -/
theorem C10_positive_amount_contributes_nothing (t : Tx) (rows : List Tx)
    (h : 0 < t.importo) :
    totalInvestments (t :: rows) = totalInvestments rows ∧
    totalSavings (t :: rows) = totalSavings rows := by
  have hcond : ∀ b : Bool, ¬ ((decide (t.importo < 0) && b) = true) := by
    intro b hb
    rw [Bool.and_eq_true, decide_eq_true_eq] at hb
    exact absurd hb.1 (not_lt.mpr h.le)
  constructor
  · unfold totalInvestments
    rw [List.filter_cons_of_neg]
    exact hcond _
  · unfold totalSavings
    rw [List.filter_cons_of_neg]
    exact hcond _

/-- Witness for C10: a +25 dividend in an "Investimenti - ETF" category row
leaves the investments and savings totals unchanged. -/
theorem C10_positive_amount_contributes_nothing_witness :
    totalInvestments [⟨⟨2024, 1, 1⟩, "dividend", "Investimenti - ETF", 25⟩]
      = totalInvestments [] ∧
    totalSavings [⟨⟨2024, 1, 1⟩, "dividend", "Investimenti - ETF", 25⟩]
      = totalSavings [] :=
  C10_positive_amount_contributes_nothing
    ⟨⟨2024, 1, 1⟩, "dividend", "Investimenti - ETF", 25⟩ [] (by decide)
